import Mathlib

set_option maxRecDepth 8000

/-!
Shallow embedding of the ETHTokyo SocialSecuritySnap repository.

  * namespace `Api`  — the serverless `gpt/completion` endpoint
    (decode call data against the contract ABI, extract a source snippet,
    summarize via the completion service).
  * namespace `Snap` — `packages/snap/src/index.ts`, the MetaMask snap's
    `onTransaction` handler and its fetch helpers.
  * namespace `Lens` — the serverless `lens/profile` endpoint.

Network collaborators (fetch/axios), the keccak-based ABI selector of the
ethers library and the JSON parser are modelled as explicit oracle
parameters; everything else is translated statement by statement from the
TypeScript sources.  JavaScript strings are embedded as `String` (with the
character-list view `String.data` used for reasoning), and undefined-able
values as `Option`.
-/

/-- JS coercion of a possibly-`undefined` string, as template literals
print it (`undefined` for a missing value). -/
def jsStr : Option String → String
  | none => "undefined"
  | some s => s

/-- One step of JS `String.prototype.split` with a non-empty literal
separator, on character lists.  The `fuel` argument makes the recursion
structural; callers always pass at least the length of the list. -/
def splitOnAuxF (sep : List Char) : Nat → List Char → List (List Char)
  | _, [] => [[]]
  | 0, s => [s]
  | fuel + 1, c :: rest =>
    if sep.isPrefixOf (c :: rest) then
      [] :: splitOnAuxF sep fuel (rest.drop (sep.length - 1))
    else
      match splitOnAuxF sep fuel rest with
      | [] => [[c]]
      | s :: ss => (c :: s) :: ss

/-- JS `s.split(sep)` for a non-empty literal separator, on character
lists. -/
def splitOnL (sep s : List Char) : List (List Char) :=
  splitOnAuxF sep s.length s

/-- JS `s.split(sep)` on strings. -/
def jsSplit (sep s : String) : List String :=
  (splitOnL sep.data s.data).map String.mk

/-- Interleave the separator between the segments and concatenate: the
inverse of `splitOnL`. -/
def interJoin (sep : List Char) : List (List Char) → List Char
  | [] => []
  | [x] => x
  | x :: xs => x ++ sep ++ interJoin sep xs

/-- The line terminators that a JS regex `.` (without the `s` flag) does
not match. -/
def isLineTerm (c : Char) : Bool :=
  c = '\n' || c = '\r' || c = '\u2028' || c = '\u2029'

/-- Scan for an opening brace before any line terminator: the `.*\x7b`
part of the snippet-extraction regex, applied to the characters after a
candidate occurrence of the function name. -/
def hasBraceBeforeNL : List Char → Bool
  | [] => false
  | c :: cs =>
    if c = '\x7b' then true
    else if isLineTerm c then false
    else hasBraceBeforeNL cs

/-- `new RegExp("(" ++ name ++ ".*\x7b)").test item` for a function name
without regex metacharacters: the test is unanchored, so it succeeds iff
SOME occurrence of the name inside the segment is followed by an opening
brace with no line terminator in between. -/
def patternTest (name item : List Char) : Bool :=
  item.tails.any fun t => name.isPrefixOf t && hasBraceBeforeNL (t.drop name.length)

/-- The property `patternTest` decides: an occurrence of `name` inside the
segment is followed by an opening brace on the same line. -/
def SegMatches (name seg : List Char) : Prop :=
  ∃ pre mid post, seg = pre ++ name ++ mid ++ '\x7b' :: post ∧
    ∀ c ∈ mid, isLineTerm c = false

namespace Api

/-- Transport-level failure of an axios call (the request throwing). -/
structure TransportErr where
  msg : String
deriving DecidableEq

/-- The errors the endpoint's code can throw (all of them are caught by
the `try`/`catch` of `getResponseData`). -/
inductive JsError
  | abiParseError
  | fragmentError
  | decodeError
  | transport (e : TransportErr)
  | completionError
deriving DecidableEq

/-- The elementary ABI parameter types this embedding's model of the
ethers ABI decoder supports (`bytesT`/`stringT` are the dynamic ones). -/
inductive AbiType
  | uint256
  | address
  | boolT
  | bytesT
  | stringT
deriving DecidableEq

/-- A decoded ABI argument value. -/
inductive AbiValue
  | uintV (n : Nat)
  | addrV (n : Nat)
  | boolV (b : Bool)
  | bytesV (bs : List Nat)
  | strV (bs : List Nat)
deriving DecidableEq

/-- Big-endian interpretation of a byte list. -/
def beNat (bs : List Nat) : Nat :=
  bs.foldl (fun a b => a * 256 + b) 0

/-- Read the 32-byte word at offset `off`; ABI decoding reads whole words
and fails on a short buffer. -/
def word (bs : List Nat) (off : Nat) : Option Nat :=
  if off + 32 ≤ bs.length then some (beNat ((bs.drop off).take 32)) else none

/-- Decode the argument with head word index `i`: static types read their
head word, dynamic types follow the head offset to a length-prefixed
tail. -/
def decodeOne (bs : List Nat) (t : AbiType) (i : Nat) : Option AbiValue :=
  match t with
  | .uint256 => (word bs (32 * i)).map .uintV
  | .address => (word bs (32 * i)).map (fun w => .addrV (w % 2 ^ 160))
  | .boolT => (word bs (32 * i)).map (fun w => .boolV (w != 0))
  | .bytesT => do
      let off ← word bs (32 * i)
      let len ← word bs off
      if off + 32 + len ≤ bs.length then
        some (.bytesV ((bs.drop (off + 32)).take len))
      else none
  | .stringT => do
      let off ← word bs (32 * i)
      let len ← word bs off
      if off + 32 + len ≤ bs.length then
        some (.strV ((bs.drop (off + 32)).take len))
      else none

/-- Decode one value per declared input, consuming head words in order. -/
def decodeArgs (bs : List Nat) : List AbiType → Nat → Option (List AbiValue)
  | [], _ => some []
  | t :: ts, i => do
      let v ← decodeOne bs t i
      let vs ← decodeArgs bs ts (i + 1)
      pure (v :: vs)

/-- One entry of the JSON-parsed contract ABI (only the fields the code
reads are modelled). -/
structure AbiEntry where
  type : Option String
  name : Option String
  inputs : List AbiType
deriving DecidableEq

/-- A function fragment of an `ethers.Interface`. -/
structure FunctionFragment where
  name : String
  inputs : List AbiType
deriving DecidableEq

/-- `new ethers.Interface(abi)`, on the already-JSON-parsed entries: keep
the `function` entries; a function entry without a name is a malformed
fragment and makes the constructor throw. -/
def fragmentsOf (entries : List AbiEntry) : Except JsError (List FunctionFragment) :=
  (entries.filter (fun e => e.type == some "function")).mapM fun e =>
    match e.name with
    | some n => .ok (⟨n, e.inputs⟩ : FunctionFragment)
    | none => .error .fragmentError

/-- Result of `Interface.parseTransaction`. -/
structure TransactionDescription where
  name : String
  args : List AbiValue
deriving DecidableEq

/-- `Interface.parseTransaction`: match the 4-byte selector of the call
data against the fragments (`sel` is the keccak selector oracle of the
ethers library); `none` when no fragment matches; a decode failure
throws. -/
def parseTransaction (sel : FunctionFragment → List Nat)
    (frags : List FunctionFragment) (data : List Nat) :
    Except JsError (Option TransactionDescription) :=
  match frags.find? (fun f => sel f == data.take 4) with
  | none => .ok none
  | some f =>
    match decodeArgs (data.drop 4) f.inputs 0 with
    | none => .error .decodeError
    | some args => .ok (some ⟨f.name, args⟩)

/-- The record `getContractFunctionDetails` returns (`functionAbi = none`
models the `{}` placeholder). -/
structure FunctionDetails where
  functionName : String
  functionArgs : List AbiValue
  functionAbi : Option AbiEntry
deriving DecidableEq

/-- `getContractFunctionDetails`: decode the call data against the
contract ABI string.  `parseAbi` is the JSON-parsing oracle (`none` means
the string does not parse, so `new ethers.Interface` throws); call data is
embedded at the byte level (the hex transport is transparent). -/
def getContractFunctionDetails (sel : FunctionFragment → List Nat)
    (parseAbi : String → Option (List AbiEntry))
    (inputData : List Nat) (contractABI : String) : Except JsError FunctionDetails :=
  match parseAbi contractABI with
  | none => .error .abiParseError
  | some entries =>
    match fragmentsOf entries with
    | .error e => .error e
    | .ok frags =>
      match parseTransaction sel frags inputData with
      | .error e => .error e
      | .ok none => .ok ⟨"", [], none⟩
      | .ok (some decoded) =>
        let functionName := decoded.name
        let functionArgs := decoded.args
        let functionAbi := entries.find? fun item =>
          item.type == some "function" && item.name == some functionName
        .ok ⟨functionName, functionArgs, functionAbi⟩

/-- The literal delimiter of `getFunctionSourceCode`. -/
def fnKw : List Char := "function".data

/-- `getFunctionSourceCode`: split the contract code on the literal
keyword `function`, keep every segment the (unanchored) regex test
accepts, and concatenate the kept segments in order. -/
def getFunctionSourceCode (contractCode functionName : String) : String :=
  let stringArray := splitOnL fnKw contractCode.data
  String.mk (stringArray.foldl
    (fun functionSourceCode item =>
      if patternTest functionName.data item then functionSourceCode ++ item
      else functionSourceCode)
    [])

/-- The snippet extractor as §4.2 of the spec words it, for comparison
with `getFunctionSourceCode`: keep exactly the segments that START with
the function name followed eventually (anywhere later in the segment) by
an opening brace. -/
def getFunctionSourceCodeSpec (contractCode functionName : String) : String :=
  let stringArray := splitOnL fnKw contractCode.data
  String.mk (stringArray.foldl
    (fun acc item =>
      if functionName.data.isPrefixOf item && (item.drop functionName.length).contains '\x7b'
      then acc ++ item
      else acc)
    [])

/-- One element of the explorer response's `result` array. -/
structure ScanEntry where
  ContractName : Option String
  SourceCode : Option String
  ABI : Option String
deriving DecidableEq

/-- Body of the explorer response (`response.data`). -/
structure ScanResponse where
  result : Option (List ScanEntry)
deriving DecidableEq

/-- The verified-contract details `getContractDetails` extracts. -/
structure ContractDetails where
  contractName : String
  contractCode : String
  abi : String
deriving DecidableEq

/-- Outbound network effects of the endpoint. -/
inductive Effect
  | axiosGet (uri : String)
  | completionPost (uri auth content : String)
deriving DecidableEq

/-- Whether an effect is a call to the completion service. -/
def Effect.isCompletionPost : Effect → Bool
  | .completionPost _ _ _ => true
  | _ => false

/-- `getContractDetailsApiEndpoint` (the API keys are read from the
environment; they are passed here as parameters). -/
def getContractDetailsApiEndpoint (chainId : Nat) (contractAddress : String)
    (etherscanKey polygonKey : String) : Option String :=
  match chainId with
  | 1 => some ("https://api.etherscan.io/api?module=contract&action=getsourcecode&address=" ++ contractAddress ++ "&apikey=" ++ etherscanKey)
  | 5 => some ("https://api-goerli.etherscan.io/api?module=contract&action=getsourcecode&address=" ++ contractAddress ++ "&apikey=" ++ etherscanKey)
  | 137 => some ("https://api.polygonscan.com/api?module=contract&action=getsourcecode&address=" ++ contractAddress ++ "&apikey=" ++ polygonKey)
  | 59140 => some ("https://explorer.goerli.linea.build/api?module=contract&action=getsourcecode&address=" ++ contractAddress)
  | 80001 => some ("https://api-testnet.polygonscan.com/api?module=contract&action=getsourcecode&address=" ++ contractAddress ++ "&apikey=" ++ polygonKey)
  | _ => none

/-- `getContractDetails`: `.ok none` models every `return false` branch
("not verified"); a transport error models `axios.get` throwing.  The JS
falsiness checks on the extracted fields reject both a missing field and
an empty string. -/
def getContractDetails (chainId : Nat) (contractAddress : String)
    (etherscanKey polygonKey : String)
    (scanApi : Except TransportErr ScanResponse) :
    List Effect × Except TransportErr (Option ContractDetails) :=
  match getContractDetailsApiEndpoint chainId contractAddress etherscanKey polygonKey with
  | none => ([], .ok none)
  | some apiUri =>
    match scanApi with
    | .error e => ([.axiosGet apiUri], .error e)
    | .ok response =>
      ([.axiosGet apiUri],
        .ok (match response.result with
          | none => none
          | some [] => none
          | some (entry0 :: _) =>
            match entry0.ContractName, entry0.SourceCode, entry0.ABI with
            | some contractName, some contractCode, some abi =>
              if contractName = "" ∨ contractCode = "" ∨ abi = "" then none
              else some ⟨contractName, contractCode, abi⟩
            | _, _, _ => none))

/-- Status and first-choice message content of the completion-service
response. -/
structure GptResponse where
  status : Nat
  content : String
deriving DecidableEq

/-- A hexadecimal digit character. -/
def hexDigit (n : Nat) : Char :=
  ("0123456789abcdef".data).getD n '0'

/-- Lowercase hex rendering of a byte list. -/
def bytesToHex (bs : List Nat) : String :=
  String.join (bs.map fun b => String.mk [hexDigit (b / 16), hexDigit (b % 16)])

/-- Big-endian byte rendering of a natural number on `k` bytes. -/
def natToBytes : Nat → Nat → List Nat
  | 0, _ => []
  | k + 1, n => natToBytes k (n / 256) ++ [n % 256]

/-- JS `toString` of one decoded value, as interpolated into the prompt
(display only: addresses are shown as unchecksummed hex here). -/
def abiValueToString : AbiValue → String
  | .uintV n => toString n
  | .addrV n => "0x" ++ bytesToHex (natToBytes 20 n)
  | .boolV b => if b then "true" else "false"
  | .bytesV bs => "0x" ++ bytesToHex bs
  | .strV bs => String.mk (bs.map Char.ofNat)

/-- JS array `toString` (comma-joined elements), used by the template
literal interpolating `functionArgs`. -/
def jsJoinArgs (args : List AbiValue) : String :=
  String.intercalate "," (args.map abiValueToString)

/-- `JSON.stringify` of the matched ABI entry (shape only; no claim
depends on the exact serialization). -/
def stringifyAbiEntry : Option AbiEntry → String
  | none => "\x7b\x7d"
  | some e => "\x7b\"type\":\"" ++ jsStr e.type ++ "\",\"name\":\"" ++ jsStr e.name ++ "\"\x7d"

/-- `getGptCompletion` (endpoint side): build the prompt, post it to the
completion service, and throw on a non-200 status. -/
def getGptCompletion (apiKey apiEndpoint : String)
    (contractAddress contractName functionSourceCode : String)
    (contractFunctionDetails : FunctionDetails)
    (gptApi : Except TransportErr GptResponse) : List Effect × Except JsError String :=
  let apiUri := apiEndpoint ++ "/v1/chat/completions"
  let content := "・ContractAddress: " ++ contractAddress ++ "\n・ContractName: " ++ contractName ++ "\n・FunctionName: " ++ contractFunctionDetails.functionName ++ "\n・FunctionArgs: " ++ jsJoinArgs contractFunctionDetails.functionArgs ++ "\n・FunctionABI: " ++ stringifyAbiEntry contractFunctionDetails.functionAbi ++ "\n・FunctionSourceCode: " ++ functionSourceCode ++ "\nPlease tell me what the above smart contract executes."
  let post : Effect := .completionPost apiUri ("Bearer " ++ apiKey) content
  match gptApi with
  | .error e => ([post], .error (.transport e))
  | .ok response =>
    if response.status ≠ 200 then ([post], .error .completionError)
    else ([post], .ok response.content)

/-- The value serialized into the endpoint's `data` field: the summary
string, or the caught-error object. -/
inductive ApiResult
  | str (s : String)
  | errObj (error : String)
deriving DecidableEq

/-- The literal warning for unverified contracts. -/
def warningMsg : String :=
  "【WARNING】 The safety of the function you are trying to execute cannot be confirmed because it has not verified."

/-- Oracles and environment of one `gpt/completion` request. -/
structure Env where
  sel : FunctionFragment → List Nat
  parseAbi : String → Option (List AbiEntry)
  etherscanKey : String
  polygonKey : String
  gptKey : String
  gptEndpoint : String
  scanApi : Except TransportErr ScanResponse
  gptApi : Except TransportErr GptResponse

/-- `getResponseData`: the whole `try`/`catch` body of the endpoint; any
thrown error is caught, logged, and replaced by the generic error
object. -/
def getResponseData (env : Env) (contractAddress : String)
    (inputData : List Nat) (chainId : Nat) : List Effect × ApiResult :=
  match getContractDetails chainId contractAddress env.etherscanKey env.polygonKey env.scanApi with
  | (effs, .error _) => (effs, .errObj "An Error Occurred")
  | (effs, .ok none) => (effs, .str ("" ++ warningMsg))
  | (effs, .ok (some contractDetails)) =>
    match getContractFunctionDetails env.sel env.parseAbi inputData contractDetails.abi with
    | .error _ => (effs, .errObj "An Error Occurred")
    | .ok contractFunctionDetails =>
      let functionSourceCode :=
        getFunctionSourceCode contractDetails.contractCode contractFunctionDetails.functionName
      match getGptCompletion env.gptKey env.gptEndpoint contractAddress
          contractDetails.contractName functionSourceCode contractFunctionDetails env.gptApi with
      | (effs2, .error _) => (effs ++ effs2, .errObj "An Error Occurred")
      | (effs2, .ok s) => (effs ++ effs2, .str ("" ++ s))

/-- The endpoint's HTTP response (`response.status(200).json({data: …})`). -/
structure VercelResponse where
  status : Nat
  data : ApiResult
deriving DecidableEq

/-- The endpoint's default export. -/
def handler (env : Env) (contractAddress : String)
    (inputData : List Nat) (chainId : Nat) : List Effect × VercelResponse :=
  match getResponseData env contractAddress inputData chainId with
  | (effs, responseData) => (effs, ⟨200, responseData⟩)

end Api

namespace Snap

/-- The `@metamask/snaps-ui` node tree a panel renders to. -/
inductive UiNode
  | panel (children : List UiNode)
  | heading (s : String)
  | text (s : String)
  | copyable (s : String)
  | divider

/-- The `data` object inside the lens/profile response body. -/
structure LensProfileData where
  handle : String
deriving DecidableEq

/-- Parsed JSON body of the lens/profile endpoint. -/
structure LensProfileResp where
  data : LensProfileData
deriving DecidableEq

/-- Parsed JSON body of the gpt/completion endpoint as the snap reads
it. -/
structure GptCompletionResp where
  data : String
deriving DecidableEq

/-- The errors the handler can raise. -/
inductive JsError
  | referenceError (name : String)
  | jsError (msg : String)
deriving DecidableEq

/-- The handler's observable effects: the state fetch and outbound
`fetch` calls. -/
inductive Effect
  | stateGet
  | fetch (url : String)
deriving DecidableEq

/-- The fields of the pending transaction the handler reads (each may be
absent). -/
structure Transaction where
  from_ : Option String
  to_ : Option String
  data : Option String
deriving DecidableEq

/-- The snap's persisted state (what the `setData` RPC method stores). -/
structure SnapState where
  worldId : String
deriving DecidableEq

def baseURL : String := "https://eth-tokyo-social-security-snap-app.vercel.app/api"

/-- `getLensProfile`: fetch, throw on a non-ok response, parse the JSON
body.  The oracle carries either the non-ok status or the parsed body. -/
def getLensProfile (walletAddress : String)
    (oracle : Except Nat LensProfileResp) : List Effect × Except JsError LensProfileResp :=
  ([.fetch (baseURL ++ "/lens/profile?walletAddress=" ++ walletAddress)],
    match oracle with
    | .error status => .error (.jsError ("HTTP error! Status: " ++ toString status))
    | .ok data => .ok data)

/-- `getLensFollowing` (declared in the module; its call site is commented
out). -/
def getLensFollowing (walletAddress : String)
    (oracle : Except Nat String) : List Effect × Except JsError String :=
  ([.fetch (baseURL ++ "/lens/following?walletAddress=" ++ walletAddress)],
    match oracle with
    | .error status => .error (.jsError ("HTTP error! Status: " ++ toString status))
    | .ok data => .ok data)

/-- `getLensApprovedAddressList`: fetch, throw on a non-ok response, parse
(the body is consumed as an opaque JSON value, embedded as a string). -/
def getLensApprovedAddressList (walletAddress contractAddress inputData chainId : String)
    (oracle : Except Nat String) : List Effect × Except JsError String :=
  ([.fetch (baseURL ++ "/lens/following?walletAddress=" ++ walletAddress ++ "&contractAddress=" ++ contractAddress ++ "&inputData=" ++ inputData ++ "&chainId=" ++ chainId)],
    match oracle with
    | .error status => .error (.jsError ("HTTP error! Status: " ++ toString status))
    | .ok data => .ok data)

/-- `getGptCompletion` (snap side): fetch, throw on a non-ok response,
parse the JSON body. -/
def getGptCompletion (contractAddress inputData chainId : String)
    (oracle : Except Nat GptCompletionResp) : List Effect × Except JsError GptCompletionResp :=
  ([.fetch (baseURL ++ "/gpt/completion?contractAddress=" ++ contractAddress ++ "&inputData=" ++ inputData ++ "&chainId=" ++ chainId)],
    match oracle with
    | .error status => .error (.jsError ("HTTP error! Status: " ++ toString status))
    | .ok data => .ok data)

/-- `Promise.all` on three already-started requests: every request's
effect happens regardless of the outcome of the others; the join resolves
iff all three resolve, and rejects with a rejection otherwise (the first
listed rejection in this deterministic model). -/
def promiseAll3 {α β γ : Type} (a : List Effect × Except JsError α)
    (b : List Effect × Except JsError β) (c : List Effect × Except JsError γ) :
    List Effect × Except JsError (α × β × γ) :=
  (a.1 ++ b.1 ++ c.1,
    match a.2, b.2, c.2 with
    | .ok x, .ok y, .ok z => .ok (x, y, z)
    | .error e, _, _ => .error e
    | .ok _, .error e, _ => .error e
    | .ok _, .ok _, .error e => .error e)

/-- The "Not a unique human!!" panel, returned by both early gates of the
handler. -/
def notUniquePanel : UiNode :=
  .panel [.heading "Not a unique human!!",
    .text "Please prove that you are a unique human.",
    .copyable "https://eth-tokyo-social-security-snap-app.vercel.app"]

/-- The insights panel of the verified rendering branch. -/
def insightsPanel (lensProfile : LensProfileResp) (lensApprovedAddressList : String)
    (gptCompletion : GptCompletionResp) : UiNode :=
  .panel [.heading "Lens Insights🌿", .divider,
    .text "LensProfile:", .text lensProfile.data.handle,
    .text "LensFollowingExecution:", .text lensApprovedAddressList,
    .heading "GPT Insights🌐", .divider,
    .text gptCompletion.data]

/-- The identity-verification flag (`const isVerifiedWorldId = false`),
hoisted so its value can be named. -/
def isVerifiedWorldId : Bool := false

/-- The fetch effects of the three-way `Promise.all` fan-out, in launch
order (`ec` is the already-extracted chain id as it appears in the
URLs). -/
def lensFetchEffects (w c i ec : String) : List Effect :=
  [.fetch (baseURL ++ "/lens/profile?walletAddress=" ++ w),
   .fetch (baseURL ++ "/lens/following?walletAddress=" ++ w ++ "&contractAddress=" ++ c ++ "&inputData=" ++ i ++ "&chainId=" ++ ec),
   .fetch (baseURL ++ "/gpt/completion?contractAddress=" ++ c ++ "&inputData=" ++ i ++ "&chainId=" ++ ec)]

/-- Lines 93–149 of `onTransaction`: every statement after the
`console.log('worldId', worldId)` statement.  `data` is the result of the
state fetch; the three oracles are the outcomes of the three lens/gpt
requests. -/
def onTransactionRest (data : Option SnapState) (transaction : Transaction)
    (chainId : String) (profileOracle : Except Nat LensProfileResp)
    (approvedOracle : Except Nat String) (gptOracle : Except Nat GptCompletionResp) :
    List Effect × Except JsError UiNode :=
  match data with
  | none => ([], .ok notUniquePanel)
  | some _ =>
    match transaction.from_, transaction.to_, transaction.data with
    | some myWalletAddress, some contractAddress, some inputData =>
      if myWalletAddress = "" ∨ contractAddress = "" ∨ inputData = "" ∨ chainId = "" then
        ([], .error (.jsError "Missing required parameters"))
      else
        let extractedChainId := (jsSplit ":" chainId)[1]?
        match promiseAll3
          (getLensProfile myWalletAddress profileOracle)
          (getLensApprovedAddressList myWalletAddress contractAddress inputData
            (jsStr extractedChainId) approvedOracle)
          (getGptCompletion contractAddress inputData
            (jsStr extractedChainId) gptOracle) with
        | (effs, .error e) => (effs, .error e)
        | (effs, .ok (lensProfile, lensApprovedAddressList, gptCompletion)) =>
          if !isVerifiedWorldId then
            (effs, .ok notUniquePanel)
          else
            (effs, .ok (insightsPanel lensProfile lensApprovedAddressList gptCompletion))
    | _, _, _ => ([], .error (.jsError "Missing required parameters"))

/-- The identifiers in scope at `console.log('worldId', worldId)`: the
module's imports, type aliases and declarations, the handler's parameters
and the locals declared before that statement, and the ambient globals a
snap execution environment provides. -/
def namesInScopeAtLog : List String :=
  ["OnRpcRequestHandler", "OnTransactionHandler",
   "copyable", "divider", "heading", "panel", "text",
   "WalletAddress", "ContractAddress", "InputData", "ChainId",
   "baseURL", "getLensProfile", "getLensFollowing",
   "getLensApprovedAddressList", "getGptCompletion",
   "onTransaction", "onRpcRequest",
   "chainId", "transaction", "data",
   "snap", "ethereum", "fetch", "console", "Error", "Promise", "JSON",
   "Math", "Date", "Object", "Array", "String", "Number", "Boolean",
   "globalThis", "undefined", "NaN", "Infinity", "WebAssembly",
   "TextEncoder", "TextDecoder", "URL", "setTimeout", "setInterval",
   "clearTimeout", "clearInterval", "atob", "btoa", "crypto"]

/-- The full `onTransaction` handler.  Line 91 evaluates the identifier
`worldId`; evaluating an identifier that no enclosing scope declares
throws a `ReferenceError`, so the rest of the body runs only if the name
resolves. -/
def onTransaction (data : Option SnapState) (transaction : Transaction)
    (chainId : String) (profileOracle : Except Nat LensProfileResp)
    (approvedOracle : Except Nat String) (gptOracle : Except Nat GptCompletionResp) :
    List Effect × Except JsError UiNode :=
  if namesInScopeAtLog.contains "worldId" then
    match onTransactionRest data transaction chainId profileOracle approvedOracle gptOracle with
    | (effs, r) => (Effect.stateGet :: effs, r)
  else
    ([Effect.stateGet], .error (.referenceError "worldId"))

end Snap

namespace Lens

/-- The hardcoded profile data of the lens/profile endpoint. -/
structure ProfileData where
  handle : String
deriving DecidableEq

/-- Response body shapes of the endpoint. -/
inductive RespBody
  | profile (data : ProfileData)
deriving DecidableEq

/-- The endpoint's HTTP response. -/
structure HttpResponse where
  status : Nat
  body : RespBody
deriving DecidableEq

/-- `getDefaultProfile` (lens/profile endpoint).  `graphqlProfile` is the
value `result.data.defaultProfile` the Apollo query returned; the code
logs it and otherwise ignores it (the line that would have returned it is
commented out). -/
def getDefaultProfile {α : Type} (walletAddress : Option String)
    (graphqlProfile : α) : HttpResponse :=
  let _result := graphqlProfile
  let data :=
    if walletAddress = some "0xd19B53464bBD3289823b278efb0461a903271004" then
      ProfileData.mk "yusaka.test"
    else
      ProfileData.mk "sakasaka.test"
  ⟨200, .profile data⟩

end Lens

/-! ### General lemmas about the split/concatenate machinery -/

theorem foldl_append_filter {α : Type} (p : List α → Bool)
    (segs : List (List α)) :
    ∀ acc : List α,
      segs.foldl (fun a s => if p s then a ++ s else a) acc
        = acc ++ (segs.filter p).flatten := by
  induction segs with
  | nil => intro acc; simp
  | cons s ss ih =>
    intro acc
    by_cases h : p s
    · simp [List.foldl_cons, h, ih, List.append_assoc]
    · simp [List.foldl_cons, h, ih]

theorem splitOnAuxF_ne_nil (sep : List Char) (fuel : Nat) (s : List Char) :
    splitOnAuxF sep fuel s ≠ [] := by
  match fuel, s with
  | fuel, [] => simp [splitOnAuxF]
  | 0, c :: rest => simp [splitOnAuxF]
  | fuel + 1, c :: rest =>
    rw [splitOnAuxF]
    split
    · simp
    · split <;> simp

theorem interJoin_cons_cons (sep : List Char) (c : Char) (x : List Char)
    (l : List (List Char)) :
    interJoin sep ((c :: x) :: l) = c :: interJoin sep (x :: l) := by
  cases l <;> simp [interJoin]

theorem interJoin_splitOnAuxF (sep : List Char) (hsep : sep ≠ []) :
    ∀ (fuel : Nat) (s : List Char), s.length ≤ fuel →
      interJoin sep (splitOnAuxF sep fuel s) = s := by
  intro fuel
  induction fuel with
  | zero =>
    intro s hs
    have hnil : s = [] := List.length_eq_zero.mp (Nat.le_zero.mp hs)
    subst hnil
    simp [splitOnAuxF, interJoin]
  | succ fuel ih =>
    intro s hs
    match s with
    | [] => simp [splitOnAuxF, interJoin]
    | c :: rest =>
      rw [splitOnAuxF]
      by_cases hpre : sep.isPrefixOf (c :: rest)
      · rw [if_pos hpre]
        obtain ⟨y, ys, hys⟩ : ∃ y ys,
            splitOnAuxF sep fuel (rest.drop (sep.length - 1)) = y :: ys := by
          cases h : splitOnAuxF sep fuel (rest.drop (sep.length - 1)) with
          | nil => exact absurd h (splitOnAuxF_ne_nil _ _ _)
          | cons y ys => exact ⟨y, ys, rfl⟩
        rw [hys]
        have hlen : (rest.drop (sep.length - 1)).length ≤ fuel := by
          rw [List.length_drop]
          have : rest.length + 1 ≤ fuel + 1 := hs
          omega
        have hj : interJoin sep (y :: ys) = rest.drop (sep.length - 1) := by
          rw [← hys]; exact ih _ hlen
        have hrec : sep ++ rest.drop (sep.length - 1) = c :: rest := by
          obtain ⟨t, ht⟩ := List.isPrefixOf_iff_prefix.mp hpre
          have hdt : t = (c :: rest).drop sep.length := by
            rw [← ht, List.drop_left]
          obtain ⟨k, hk⟩ : ∃ k, sep.length = k + 1 := by
            cases hsl : sep.length with
            | zero => exact absurd (List.length_eq_zero.mp hsl) hsep
            | succ k => exact ⟨k, rfl⟩
          rw [← ht, hdt, hk]
          simp [List.drop_succ_cons]
        calc interJoin sep ([] :: y :: ys)
            = sep ++ interJoin sep (y :: ys) := by simp [interJoin]
          _ = sep ++ rest.drop (sep.length - 1) := by rw [hj]
          _ = c :: rest := hrec
      · rw [if_neg hpre]
        obtain ⟨y, ys, hys⟩ : ∃ y ys, splitOnAuxF sep fuel rest = y :: ys := by
          cases h : splitOnAuxF sep fuel rest with
          | nil => exact absurd h (splitOnAuxF_ne_nil _ _ _)
          | cons y ys => exact ⟨y, ys, rfl⟩
        rw [hys, interJoin_cons_cons]
        have hj : interJoin sep (y :: ys) = rest := by
          rw [← hys]
          exact ih rest (by simp only [List.length_cons] at hs; omega)
        rw [hj]

theorem flatten_sublist_of_sublist {α : Type} {l₁ l₂ : List (List α)}
    (h : l₁.Sublist l₂) : l₁.flatten.Sublist l₂.flatten := by
  induction h with
  | slnil => simp
  | cons a h ih =>
    rw [List.flatten_cons]
    exact ih.trans (List.sublist_append_right a _)
  | cons₂ a h ih =>
    rw [List.flatten_cons, List.flatten_cons]
    exact ih.append_left a

theorem flatten_sublist_interJoin (sep : List Char) :
    ∀ segs : List (List Char), segs.flatten.Sublist (interJoin sep segs) := by
  intro segs
  induction segs with
  | nil => simp [interJoin]
  | cons x xs ih =>
    cases xs with
    | nil => simp [interJoin]
    | cons y ys =>
      rw [List.flatten_cons]
      show (x ++ (y :: ys).flatten).Sublist (x ++ sep ++ interJoin sep (y :: ys))
      rw [List.append_assoc]
      exact (ih.trans (List.sublist_append_right sep _)).append_left x

theorem hasBraceBeforeNL_iff (l : List Char) :
    hasBraceBeforeNL l = true
      ↔ ∃ mid post, l = mid ++ '\x7b' :: post ∧ ∀ c ∈ mid, isLineTerm c = false := by
  induction l with
  | nil =>
    constructor
    · intro h; simp [hasBraceBeforeNL] at h
    · rintro ⟨mid, post, heq, -⟩
      exact absurd heq.symm (by simp)
  | cons c cs ih =>
    by_cases hb : c = '\x7b'
    · subst hb
      constructor
      · intro _; exact ⟨[], cs, rfl, by simp⟩
      · intro _; simp [hasBraceBeforeNL]
    · by_cases hl : isLineTerm c
      · constructor
        · intro h
          rw [hasBraceBeforeNL, if_neg hb, if_pos hl] at h
          exact absurd h (by simp)
        · rintro ⟨mid, post, heq, hmid⟩
          cases mid with
          | nil =>
            simp only [List.nil_append, List.cons.injEq] at heq
            exact absurd heq.1 hb
          | cons m ms =>
            simp only [List.cons_append, List.cons.injEq] at heq
            have hc : isLineTerm c = false := heq.1 ▸ hmid m (List.mem_cons_self m ms)
            simp [hc] at hl
      · rw [hasBraceBeforeNL, if_neg hb, if_neg hl, ih]
        constructor
        · rintro ⟨mid, post, heq, hmid⟩
          refine ⟨c :: mid, post, by rw [heq]; rfl, ?_⟩
          intro d hd
          rcases List.mem_cons.mp hd with hdc | hdm
          · subst hdc; exact Bool.of_not_eq_true hl
          · exact hmid d hdm
        · rintro ⟨mid, post, heq, hmid⟩
          cases mid with
          | nil =>
            simp only [List.nil_append, List.cons.injEq] at heq
            exact absurd heq.1 hb
          | cons m ms =>
            simp only [List.cons_append, List.cons.injEq] at heq
            exact ⟨ms, post, heq.2, fun d hd => hmid d (List.mem_cons_of_mem m hd)⟩

theorem patternTest_iff (name seg : List Char) :
    patternTest name seg = true ↔ SegMatches name seg := by
  unfold patternTest SegMatches
  rw [List.any_eq_true]
  constructor
  · rintro ⟨t, ht, hp⟩
    rw [Bool.and_eq_true] at hp
    obtain ⟨hname, hbr⟩ := hp
    obtain ⟨pre, hpre⟩ := (List.mem_tails t seg).mp ht
    obtain ⟨r, hr⟩ := List.isPrefixOf_iff_prefix.mp hname
    rw [← hr, List.drop_left] at hbr
    obtain ⟨mid, post, hmp, hmid⟩ := (hasBraceBeforeNL_iff r).mp hbr
    refine ⟨pre, mid, post, ?_, hmid⟩
    rw [← hpre, ← hr, hmp]
    simp [List.append_assoc]
  · rintro ⟨pre, mid, post, heq, hmid⟩
    refine ⟨name ++ mid ++ '\x7b' :: post, ?_, ?_⟩
    · rw [List.mem_tails]
      exact ⟨pre, by rw [heq]; simp [List.append_assoc]⟩
    · rw [Bool.and_eq_true]
      constructor
      · rw [List.isPrefixOf_iff_prefix]
        exact ⟨mid ++ '\x7b' :: post, by simp [List.append_assoc]⟩
      · rw [List.append_assoc, List.drop_left]
        exact (hasBraceBeforeNL_iff _).mpr ⟨mid, post, rfl, hmid⟩

/-! ### Claim theorems -/

/-- C4 counterexample: the claim says `getFunctionSourceCode` keeps exactly
the segments that START with the function name.  On this input the kept
segment is "abc transfer() \x7b " which does not start with "transfer"
(the regex test is unanchored), so the extractor under the claim's wording
(`getFunctionSourceCodeSpec`) would return the empty string while the code
returns that segment. -/
theorem c4_counterexample_unanchored_match :
    Api.getFunctionSourceCode "abc transfer() \x7b function foo() \x7b\x7d" "transfer"
        = "abc transfer() \x7b "
    ∧ ¬ ("transfer".data <+: "abc transfer() \x7b ".data)
    ∧ Api.getFunctionSourceCodeSpec "abc transfer() \x7b function foo() \x7b\x7d" "transfer"
        = "" := by
  refine ⟨by decide, by decide, by decide⟩

/-- C4 (amended): `getFunctionSourceCode` splits the source on the literal
keyword `function` and returns the concatenation, in order, of ALL
segments that CONTAIN an occurrence of the function name followed by an
opening brace with no intervening line terminator (the regex test is
unanchored and `.*` does not cross lines).  In particular, for a source
with two overloaded `transfer` declarations both matched segments appear
concatenated. -/
theorem c4_amended_all_containing_segments (contractCode functionName : String) :
    ((Api.getFunctionSourceCode contractCode functionName).data
        = ((splitOnL Api.fnKw contractCode.data).filter
            (patternTest functionName.data)).flatten)
    ∧ (∀ seg : List Char,
        patternTest functionName.data seg = true ↔ SegMatches functionName.data seg)
    ∧ Api.getFunctionSourceCode
        "function transfer(uint a) \x7bA\x7d function transfer(uint a, uint b) \x7bB\x7d"
        "transfer"
        = " transfer(uint a) \x7bA\x7d  transfer(uint a, uint b) \x7bB\x7d" := by
  refine ⟨?_, fun seg => patternTest_iff functionName.data seg, by decide⟩
  show (splitOnL Api.fnKw contractCode.data).foldl
      (fun a s => if patternTest functionName.data s then a ++ s else a) []
    = ((splitOnL Api.fnKw contractCode.data).filter (patternTest functionName.data)).flatten
  rw [foldl_append_filter]
  simp

/-- C5 counterexample: the claim says the extracted snippet is always a
contiguous substring of the source text.  For a source with two overloaded
`transfer` declarations the result is the concatenation of two
non-adjacent segments (the `function` keyword between them is dropped), so
it is not an infix of the source. -/
theorem c5_counterexample_not_substring :
    ¬ ((Api.getFunctionSourceCode
          "function transfer(uint a) \x7bA\x7d function transfer(uint a, uint b) \x7bB\x7d"
          "transfer").data
        <:+: "function transfer(uint a) \x7bA\x7d function transfer(uint a, uint b) \x7bB\x7d".data) := by
  decide

/-- C5 (amended): the value returned by `getFunctionSourceCode` is an
order-preserving selection of characters of the source text (a sublist,
possibly empty) — but not in general a contiguous substring, because the
kept segments need not be adjacent and the `function` delimiters are
dropped. -/
theorem c5_amended_snippet_sublist (contractCode functionName : String) :
    (Api.getFunctionSourceCode contractCode functionName).data.Sublist contractCode.data := by
  have h1 : (Api.getFunctionSourceCode contractCode functionName).data
      = ((splitOnL Api.fnKw contractCode.data).filter
          (patternTest functionName.data)).flatten := by
    show (splitOnL Api.fnKw contractCode.data).foldl
        (fun a s => if patternTest functionName.data s then a ++ s else a) []
      = ((splitOnL Api.fnKw contractCode.data).filter (patternTest functionName.data)).flatten
    rw [foldl_append_filter]
    simp
  rw [h1]
  have h2 := flatten_sublist_of_sublist
    (List.filter_sublist (p := patternTest functionName.data)
      (l := splitOnL Api.fnKw contractCode.data))
  have h3 := flatten_sublist_interJoin Api.fnKw (splitOnL Api.fnKw contractCode.data)
  have h4 : interJoin Api.fnKw (splitOnL Api.fnKw contractCode.data) = contractCode.data :=
    interJoin_splitOnAuxF Api.fnKw (by decide) _ _ (Nat.le_refl _)
  rw [h4] at h3
  exact h2.trans h3

/-- C3: when every ABI fragment's selector differs from the first 4 bytes
of the call data, `getContractFunctionDetails` returns the empty-name,
empty-argument `FunctionDetails` (with the `{}` placeholder for the ABI
fragment) and does not throw. -/
theorem c3_no_selector_match_empty (sel : Api.FunctionFragment → List Nat)
    (parseAbi : String → Option (List Api.AbiEntry)) (inputData : List Nat)
    (contractABI : String) (entries : List Api.AbiEntry)
    (frags : List Api.FunctionFragment)
    (hparse : parseAbi contractABI = some entries)
    (hfrags : Api.fragmentsOf entries = .ok frags)
    (hlen : 4 ≤ inputData.length)
    (hnomatch : ∀ f ∈ frags, sel f ≠ inputData.take 4) :
    Api.getContractFunctionDetails sel parseAbi inputData contractABI
      = .ok ⟨"", [], none⟩ := by
  have hfind : frags.find? (fun f => sel f == inputData.take 4) = none := by
    rw [List.find?_eq_none]
    intro f hf
    simp [hnomatch f hf]
  unfold Api.getContractFunctionDetails Api.parseTransaction
  simp only [hparse, hfrags, hfind]

/-- C3 witness: a concrete ABI with no fragments, so no selector can
match; the resolver returns the empty `FunctionDetails`. -/
theorem c3_witness :
    Api.getContractFunctionDetails (fun _ => [0, 0, 0, 0])
      (fun s => if s = "[]" then some [] else none) [1, 2, 3, 4] "[]"
      = .ok ⟨"", [], none⟩ :=
  c3_no_selector_match_empty (fun _ => [0, 0, 0, 0])
    (fun s => if s = "[]" then some [] else none) [1, 2, 3, 4] "[]" [] []
    (by decide) rfl (by decide) (by simp)

theorem decodeArgs_length (bs : List Nat) :
    ∀ (ts : List Api.AbiType) (i : Nat) (vs : List Api.AbiValue),
      Api.decodeArgs bs ts i = some vs → vs.length = ts.length := by
  intro ts
  induction ts with
  | nil =>
    intro i vs h
    simp only [Api.decodeArgs, Option.some.injEq] at h
    subst h
    rfl
  | cons t ts ih =>
    intro i vs h
    simp only [Api.decodeArgs, Option.bind_eq_bind, Option.bind_eq_some] at h
    obtain ⟨v, -, hrest⟩ := h
    obtain ⟨vs2, hvs2, heq⟩ := hrest
    simp only [Option.pure_def, Option.some.injEq] at heq
    subst heq
    simp [ih (i + 1) vs2 hvs2]

/-- C8: when some fragment's selector matches the call data's selector and
decoding succeeds, the decoded argument list of the resulting
`FunctionDetails` has exactly as many entries as the matched fragment
declares inputs. -/
theorem c8_arg_count_matches_inputs (sel : Api.FunctionFragment → List Nat)
    (parseAbi : String → Option (List Api.AbiEntry)) (inputData : List Nat)
    (contractABI : String) (entries : List Api.AbiEntry)
    (frags : List Api.FunctionFragment) (f : Api.FunctionFragment)
    (fd : Api.FunctionDetails)
    (hparse : parseAbi contractABI = some entries)
    (hfrags : Api.fragmentsOf entries = .ok frags)
    (hfind : frags.find? (fun g => sel g == inputData.take 4) = some f)
    (hok : Api.getContractFunctionDetails sel parseAbi inputData contractABI = .ok fd) :
    fd.functionArgs.length = f.inputs.length := by
  unfold Api.getContractFunctionDetails Api.parseTransaction at hok
  simp only [hparse, hfrags, hfind] at hok
  cases hdec : Api.decodeArgs (inputData.drop 4) f.inputs 0 with
  | none =>
    rw [hdec] at hok
    exact absurd hok (by simp)
  | some args =>
    rw [hdec] at hok
    simp only [Except.ok.injEq] at hok
    rw [← hok]
    exact decodeArgs_length _ _ _ _ hdec

/-- C8 witness: a concrete `transfer(address,uint256)` call whose selector
matches; two declared inputs decode to two arguments. -/
theorem c8_witness :
    (Api.FunctionDetails.mk "transfer" [.addrV 5, .uintV 7]
        (some ⟨some "function", some "transfer", [.address, .uint256]⟩)).functionArgs.length
      = (Api.FunctionFragment.mk "transfer" [.address, .uint256]).inputs.length :=
  c8_arg_count_matches_inputs
    (fun f => if f.name = "transfer" then [169, 5, 156, 187] else [0, 0, 0, 0])
    (fun s => if s = "[abi]" then
        some [⟨some "function", some "transfer", [.address, .uint256]⟩]
      else none)
    ([169, 5, 156, 187] ++ (List.replicate 31 0 ++ [5]) ++ (List.replicate 31 0 ++ [7]))
    "[abi]"
    [⟨some "function", some "transfer", [.address, .uint256]⟩]
    [⟨"transfer", [.address, .uint256]⟩]
    ⟨"transfer", [.address, .uint256]⟩
    ⟨"transfer", [.addrV 5, .uintV 7],
      some ⟨some "function", some "transfer", [.address, .uint256]⟩⟩
    (by decide) (by rfl) (by decide) (by rfl)

theorem getContractDetails_effects (chainId : Nat)
    (contractAddress etherscanKey polygonKey : String)
    (scanApi : Except Api.TransportErr Api.ScanResponse) :
    (Api.getContractDetails chainId contractAddress etherscanKey polygonKey scanApi).1 = []
    ∨ ∃ uri, (Api.getContractDetails chainId contractAddress etherscanKey polygonKey scanApi).1
        = [Api.Effect.axiosGet uri] := by
  unfold Api.getContractDetails
  cases hep : Api.getContractDetailsApiEndpoint chainId contractAddress etherscanKey polygonKey with
  | none => left; rfl
  | some uri => cases scanApi <;> exact Or.inr ⟨uri, rfl⟩

/-- C6: when the contract metadata lookup yields "not verified"
(`getContractDetails` returns `false`, i.e. `.ok none`: unsupported chain,
missing result entry, or missing contract name/source/ABI), the pipeline
returns the literal warning string and never posts to the completion
service. -/
theorem c6_not_verified_warning_no_completion (env : Api.Env)
    (contractAddress : String) (inputData : List Nat) (chainId : Nat)
    (hnv : (Api.getContractDetails chainId contractAddress env.etherscanKey
        env.polygonKey env.scanApi).2 = .ok none) :
    (Api.getResponseData env contractAddress inputData chainId).2 = .str Api.warningMsg
    ∧ (Api.getResponseData env contractAddress inputData chainId).1.filter
        Api.Effect.isCompletionPost = [] := by
  have heffs := getContractDetails_effects chainId contractAddress env.etherscanKey
    env.polygonKey env.scanApi
  unfold Api.getResponseData
  rcases hcd : Api.getContractDetails chainId contractAddress env.etherscanKey
      env.polygonKey env.scanApi with ⟨effs, r⟩
  rw [hcd] at hnv heffs
  simp only at hnv
  subst hnv
  constructor
  · rfl
  · simp only at heffs
    rcases heffs with h | ⟨uri, h⟩ <;> subst h <;> rfl

/-- C6 witness: an unsupported chain id (2) makes the metadata lookup
return "not verified" without even issuing the explorer request; the
pipeline returns the warning and performs no completion call. -/
theorem c6_witness :
    (Api.getResponseData
        ⟨fun _ => [], fun _ => none, "ek", "pk", "gk", "https://gpt.example",
          .ok ⟨none⟩, .ok ⟨200, "summary"⟩⟩ "0xc" [] 2).2 = .str Api.warningMsg
    ∧ (Api.getResponseData
        ⟨fun _ => [], fun _ => none, "ek", "pk", "gk", "https://gpt.example",
          .ok ⟨none⟩, .ok ⟨200, "summary"⟩⟩ "0xc" [] 2).1.filter
        Api.Effect.isCompletionPost = [] :=
  c6_not_verified_warning_no_completion
    ⟨fun _ => [], fun _ => none, "ek", "pk", "gk", "https://gpt.example",
      .ok ⟨none⟩, .ok ⟨200, "summary"⟩⟩ "0xc" [] 2 (by rfl)

theorem getGptCompletion_error (apiKey apiEndpoint ca cn src : String)
    (fd : Api.FunctionDetails)
    (gptApi : Except Api.TransportErr Api.GptResponse)
    (h : (∃ e, gptApi = .error e) ∨ ∃ r, gptApi = .ok r ∧ r.status ≠ 200) :
    ∃ e, (Api.getGptCompletion apiKey apiEndpoint ca cn src fd gptApi).2 = .error e := by
  rcases h with ⟨e, he⟩ | ⟨r, hr, hs⟩
  · subst he; exact ⟨.transport e, rfl⟩
  · subst hr
    unfold Api.getGptCompletion
    simp only [if_pos hs]
    exact ⟨.completionError, rfl⟩

/-- C9: whenever an error other than the two locally recovered conditions
occurs — the explorer transport fails, the contract ABI string does not
parse (so `new ethers.Interface` throws), or the completion service fails
or answers with a non-200 status — the `try`/`catch` of `getResponseData`
catches it and the caller receives only the generic
`{error: 'An Error Occurred'}` object (inside a 200 response), with no
detail of the upstream error in the response. -/
theorem c9_generic_failure_only (env : Api.Env) (contractAddress : String)
    (inputData : List Nat) (chainId : Nat)
    (herr :
      (∃ e, (Api.getContractDetails chainId contractAddress env.etherscanKey
          env.polygonKey env.scanApi).2 = .error e)
      ∨ (∃ d, (Api.getContractDetails chainId contractAddress env.etherscanKey
            env.polygonKey env.scanApi).2 = .ok (some d)
          ∧ env.parseAbi d.abi = none)
      ∨ (∃ d fd, (Api.getContractDetails chainId contractAddress env.etherscanKey
            env.polygonKey env.scanApi).2 = .ok (some d)
          ∧ Api.getContractFunctionDetails env.sel env.parseAbi inputData d.abi = .ok fd
          ∧ ((∃ e, env.gptApi = .error e) ∨ ∃ r, env.gptApi = .ok r ∧ r.status ≠ 200))) :
    (Api.getResponseData env contractAddress inputData chainId).2
        = .errObj "An Error Occurred"
    ∧ (Api.handler env contractAddress inputData chainId).2
        = ⟨200, .errObj "An Error Occurred"⟩ := by
  have hmain : (Api.getResponseData env contractAddress inputData chainId).2
      = .errObj "An Error Occurred" := by
    unfold Api.getResponseData
    rcases hcd : Api.getContractDetails chainId contractAddress env.etherscanKey
        env.polygonKey env.scanApi with ⟨effs, r⟩
    rw [hcd] at herr
    simp only at herr
    rcases herr with ⟨e, he⟩ | ⟨d, hd, hpa⟩ | ⟨d, fd, hd, hfd, hgpt⟩
    · subst he; rfl
    · subst hd
      have : Api.getContractFunctionDetails env.sel env.parseAbi inputData d.abi
          = .error .abiParseError := by
        unfold Api.getContractFunctionDetails
        rw [hpa]
      simp only [this]
    · subst hd
      simp only [hfd]
      obtain ⟨e, hge⟩ := getGptCompletion_error env.gptKey env.gptEndpoint contractAddress
        d.contractName
        (Api.getFunctionSourceCode d.contractCode fd.functionName) fd env.gptApi hgpt
      rcases hg : Api.getGptCompletion env.gptKey env.gptEndpoint contractAddress
          d.contractName
          (Api.getFunctionSourceCode d.contractCode fd.functionName) fd env.gptApi
        with ⟨effs2, r2⟩
      rw [hg] at hge
      simp only at hge
      subst hge
      rfl
  refine ⟨hmain, ?_⟩
  unfold Api.handler
  rcases hrd : Api.getResponseData env contractAddress inputData chainId with ⟨effs, rd⟩
  rw [hrd] at hmain
  simp only at hmain
  subst hmain
  rfl

/-- C9 witness: a transport failure of the explorer request on mainnet;
the response is the generic error object. -/
theorem c9_witness :
    (Api.getResponseData
        ⟨fun _ => [], fun _ => none, "ek", "pk", "gk", "https://gpt.example",
          .error ⟨"ETIMEDOUT"⟩, .ok ⟨200, "summary"⟩⟩ "0xc" [] 1).2
        = .errObj "An Error Occurred"
    ∧ (Api.handler
        ⟨fun _ => [], fun _ => none, "ek", "pk", "gk", "https://gpt.example",
          .error ⟨"ETIMEDOUT"⟩, .ok ⟨200, "summary"⟩⟩ "0xc" [] 1).2
        = ⟨200, .errObj "An Error Occurred"⟩ :=
  c9_generic_failure_only
    ⟨fun _ => [], fun _ => none, "ek", "pk", "gk", "https://gpt.example",
      .error ⟨"ETIMEDOUT"⟩, .ok ⟨200, "summary"⟩⟩ "0xc" [] 1
    (Or.inl ⟨⟨"ETIMEDOUT"⟩, by rfl⟩)

/-- C1: the identifier `worldId` used by `console.log('worldId', worldId)`
on line 91 is declared nowhere (the only other occurrences are a property
key and a property access in `onRpcRequest`), so every invocation of
`onTransaction` — whatever the chain id, transaction or request outcomes —
raises the `ReferenceError` right after the state fetch: the handler's
only effect is the state read, no fetch is ever issued, and no panel is
ever returned. -/
theorem c1_worldId_reference_error :
    Snap.namesInScopeAtLog.contains "worldId" = false
    ∧ ∀ (data : Option Snap.SnapState) (transaction : Snap.Transaction)
        (chainId : String) (profileOracle : Except Nat Snap.LensProfileResp)
        (approvedOracle : Except Nat String)
        (gptOracle : Except Nat Snap.GptCompletionResp),
        Snap.onTransaction data transaction chainId profileOracle approvedOracle gptOracle
          = ([Snap.Effect.stateGet], .error (.referenceError "worldId")) :=
  ⟨by decide, fun _ _ _ _ _ _ => rfl⟩

/-- C2: the identity-verification flag is the constant `false`, so
whenever the post-log body of the handler returns a panel at all it is the
"Not a unique human!!" panel — the verified rendering branch building the
Lens/GPT insights panel is unreachable — and the full handler never
returns the insights panel. -/
theorem c2_verified_branch_unreachable :
    Snap.isVerifiedWorldId = false
    ∧ (∀ (data : Option Snap.SnapState) (transaction : Snap.Transaction)
        (chainId : String) (o1 : Except Nat Snap.LensProfileResp)
        (o2 : Except Nat String) (o3 : Except Nat Snap.GptCompletionResp)
        (effs : List Snap.Effect) (p : Snap.UiNode),
        Snap.onTransactionRest data transaction chainId o1 o2 o3 = (effs, .ok p) →
        p = Snap.notUniquePanel)
    ∧ (∀ (data : Option Snap.SnapState) (transaction : Snap.Transaction)
        (chainId : String) (o1 : Except Nat Snap.LensProfileResp)
        (o2 : Except Nat String) (o3 : Except Nat Snap.GptCompletionResp)
        (lp : Snap.LensProfileResp) (al : String) (g : Snap.GptCompletionResp),
        (Snap.onTransaction data transaction chainId o1 o2 o3).2
          ≠ .ok (Snap.insightsPanel lp al g)) := by
  refine ⟨rfl, ?_, ?_⟩
  · intro data transaction chainId o1 o2 o3 effs p h
    unfold Snap.onTransactionRest at h
    rcases o1 with e1 | v1 <;> rcases o2 with e2 | v2 <;> rcases o3 with e3 | v3 <;>
      dsimp only [Snap.promiseAll3, Snap.getLensProfile, Snap.getLensApprovedAddressList,
        Snap.getGptCompletion, Snap.isVerifiedWorldId, Bool.not_false] at h <;>
      repeat' split at h
    all_goals try (injection h with h1 h2)
    all_goals try (exact (Except.ok.inj h2).symm)
    all_goals try (exact Except.noConfusion h2)
    all_goals simp_all
  · intro data transaction chainId o1 o2 o3 lp al g
    have hrun : Snap.onTransaction data transaction chainId o1 o2 o3
        = ([Snap.Effect.stateGet], .error (.referenceError "worldId")) := rfl
    rw [hrun]
    simp

/-- C2 witness: a run of the post-log body with no stored state returns a
panel, and that panel is the "Not a unique human!!" panel. -/
theorem c2_witness :
    Snap.onTransactionRest none ⟨none, none, none⟩ "" (.error 500) (.error 500) (.error 500)
      = ([], .ok Snap.notUniquePanel)
    ∧ Snap.notUniquePanel = Snap.notUniquePanel :=
  ⟨rfl, c2_verified_branch_unreachable.2.1 none ⟨none, none, none⟩ ""
    (.error 500) (.error 500) (.error 500) [] Snap.notUniquePanel rfl⟩

/-- C7: the three lookups are joined with `Promise.all` semantics.  With
the state present and all transaction parameters supplied: (1) if all
three lookups resolve, the handler body reaches rendering with all three
fetch effects recorded; (2) if any one of the three lookups rejects, the
whole body rejects (no partial rendering with the other two results); and
(3) all three fetches are launched regardless of the individual outcomes
(no cancellation). -/
theorem c7_promise_all_all_or_nothing (st : Snap.SnapState) (w c i cid : String)
    (hw : w ≠ "") (hc : c ≠ "") (hi : i ≠ "") (hcid : cid ≠ "") :
    (∀ (p : Snap.LensProfileResp) (al : String) (g : Snap.GptCompletionResp),
      Snap.onTransactionRest (some st) ⟨some w, some c, some i⟩ cid (.ok p) (.ok al) (.ok g)
        = (Snap.lensFetchEffects w c i (jsStr (jsSplit ":" cid)[1]?), .ok Snap.notUniquePanel))
    ∧ (∀ (o1 : Except Nat Snap.LensProfileResp) (o2 : Except Nat String)
        (o3 : Except Nat Snap.GptCompletionResp),
        ((∃ e, o1 = .error e) ∨ (∃ e, o2 = .error e) ∨ (∃ e, o3 = .error e)) →
        ∃ msg, (Snap.onTransactionRest (some st) ⟨some w, some c, some i⟩ cid o1 o2 o3).2
          = .error (.jsError msg))
    ∧ (∀ (o1 : Except Nat Snap.LensProfileResp) (o2 : Except Nat String)
        (o3 : Except Nat Snap.GptCompletionResp),
        (Snap.onTransactionRest (some st) ⟨some w, some c, some i⟩ cid o1 o2 o3).1
          = Snap.lensFetchEffects w c i (jsStr (jsSplit ":" cid)[1]?)) := by
  have hcond : ¬ (w = "" ∨ c = "" ∨ i = "" ∨ cid = "") := by
    intro hor
    rcases hor with h | h | h | h
    exacts [hw h, hc h, hi h, hcid h]
  refine ⟨?_, ?_, ?_⟩
  · intro p al g
    unfold Snap.onTransactionRest
    dsimp only
    rw [if_neg hcond]
    rfl
  · intro o1 o2 o3 herr
    unfold Snap.onTransactionRest
    dsimp only
    rw [if_neg hcond]
    rcases o1 with e1 | v1 <;> rcases o2 with e2 | v2 <;> rcases o3 with e3 | v3 <;>
      simp_all <;>
      exact ⟨_, rfl⟩
  · intro o1 o2 o3
    unfold Snap.onTransactionRest
    dsimp only
    rw [if_neg hcond]
    rcases o1 with e1 | v1 <;> rcases o2 with e2 | v2 <;> rcases o3 with e3 | v3 <;> rfl

/-- C7 witness: with all parameters present on chain `eip155:1`, the
all-resolved run renders after the three fetches, and a rejected profile
lookup fails the whole body while the three fetches are still issued. -/
theorem c7_witness :
    Snap.onTransactionRest (some ⟨"wid"⟩) ⟨some "0xw", some "0xc", some "0xd"⟩ "eip155:1"
        (.ok ⟨⟨"handle.test"⟩⟩) (.ok "[]") (.ok ⟨"summary"⟩)
      = (Snap.lensFetchEffects "0xw" "0xc" "0xd" "1", .ok Snap.notUniquePanel)
    ∧ (∃ msg, (Snap.onTransactionRest (some ⟨"wid"⟩) ⟨some "0xw", some "0xc", some "0xd"⟩
        "eip155:1" (.error 500) (.ok "[]") (.ok ⟨"summary"⟩)).2 = .error (.jsError msg))
    ∧ (Snap.onTransactionRest (some ⟨"wid"⟩) ⟨some "0xw", some "0xc", some "0xd"⟩ "eip155:1"
        (.error 500) (.ok "[]") (.ok ⟨"summary"⟩)).1
      = Snap.lensFetchEffects "0xw" "0xc" "0xd" "1" := by
  have h := c7_promise_all_all_or_nothing ⟨"wid"⟩ "0xw" "0xc" "0xd" "eip155:1"
    (by decide) (by decide) (by decide) (by decide)
  exact ⟨h.1 ⟨⟨"handle.test"⟩⟩ "[]" ⟨"summary"⟩,
    h.2.1 (.error 500) (.ok "[]") (.ok ⟨"summary"⟩) (Or.inl ⟨500, rfl⟩),
    h.2.2 (.error 500) (.ok "[]") (.ok ⟨"summary"⟩)⟩

/-- C10: the lens/profile response body depends only on whether the
`walletAddress` query parameter equals the hardcoded address (yielding
handle `yusaka.test`, otherwise `sakasaka.test`); the value fetched from
the GraphQL profile service never influences the response — two runs with
the same `walletAddress` but different GraphQL results produce the same
response. -/
theorem c10_profile_depends_only_on_address {α : Type}
    (walletAddress : Option String) (r1 r2 : α) :
    Lens.getDefaultProfile walletAddress r1 = Lens.getDefaultProfile walletAddress r2
    ∧ (Lens.getDefaultProfile walletAddress r1).body
        = .profile ⟨if walletAddress = some "0xd19B53464bBD3289823b278efb0461a903271004"
            then "yusaka.test" else "sakasaka.test"⟩ := by
  refine ⟨rfl, ?_⟩
  unfold Lens.getDefaultProfile
  by_cases h : walletAddress = some "0xd19B53464bBD3289823b278efb0461a903271004" <;>
    simp [h]
